import Mathlib

/-!
Shallow embedding of `src/Trader.py` (class `Trader`).

Conventions used throughout:
* numpy float cells are `Option ℚ`: `none` models NaN (the source uses NaN as
  the "not yet computed" sentinel), `some q` a computed value; exact rationals
  stand for floats.
* A feature history is a list of time rows (`array with shape [time, #feature]`).
* The numpy array stored in `_pred_hist_formulas` is modelled by `NPArr`,
  which records its dimensionality, because `np.append` called without an
  `axis` argument flattens both operands to 1-D.
* A method that can raise models the raised exception with `PyErr`; a method
  that mutates `self` returns the state of the object at the moment control
  leaves the method, paired with the exception if one was raised.
-/

/-- A numpy float cell; `none` is NaN. -/
abbrev Cell := Option ℚ

/-- A feature history: array with shape `[time, #feature]`, rows in time order. -/
abbrev FeatureArr := List (List ℚ)

/-- A formula held by a trader.  `Formula.py` is outside the embedded file;
`Trader.py` uses exactly two capabilities of a formula object: its
`predict(feature_arr)` method and its `to_numerical_repr()` method, so a
formula is abstracted as that pair. -/
structure Formula where
  predict : FeatureArr → ℚ
  to_numerical_repr : List ℚ

instance : Inhabited Formula := ⟨⟨fun _ => 0, []⟩⟩

/-- The numpy arrays that `_pred_hist_formulas` can hold: a 2-D float matrix
(as built by `__init__` and `_recalc_predicts_hist`) or a 1-D float vector
(as produced by `np.append` without an `axis`). -/
inductive NPArr where
  | one : List Cell → NPArr
  | two : List (List Cell) → NPArr
deriving DecidableEq

/-- The flattened contents of an array; `np.append` with no `axis` argument
flattens both of its operands before concatenating. -/
def NPArr.ravel : NPArr → List Cell
  | .one l => l
  | .two m => m.flatten

/-- Row count of a 2-D array; a 1-D array has no row structure. -/
def NPArr.nrows : NPArr → Option ℕ
  | .one _ => none
  | .two m => some m.length

/-- The Python exceptions the embedded methods can raise. -/
inductive PyErr where
  | attributeError : String → PyErr
  | notImplementedError : String → PyErr
  | valueError : String → PyErr
deriving DecidableEq

/-- The mutable state of a `Trader` instance. -/
structure Trader where
  n_terms : ℕ
  weights : List ℚ
  formulas : List Formula
  max_lag : ℕ
  score : ℚ
  pred_hist : List Cell
  pred_hist_formulas : NPArr

/-- `Trader.__init__(weights, formulas, max_lag)`.
`np.zeros(max_lag) * np.nan` is a length-`max_lag` all-NaN vector and
`np.zeros([max_lag, len(formulas)]) * np.nan` an all-NaN
`max_lag × len(formulas)` matrix. -/
def Trader.init (weights : List ℚ) (formulas : List Formula) (max_lag : ℕ) : Trader :=
  { n_terms := formulas.length
    weights := weights
    formulas := formulas
    max_lag := max_lag
    score := 0
    pred_hist := List.replicate max_lag none
    pred_hist_formulas := NPArr.two (List.replicate max_lag (List.replicate formulas.length none)) }

/-- `Trader.predict`:
`sum([weights[j] * formulas[j].predict(feature_arr) for j in range(n_terms)])`.
Out-of-range indexing cannot occur for length-consistent traders; `getD`
supplies the defaults Lean needs for totality. -/
def Trader.predict (td : Trader) (feature_arr : FeatureArr) : ℚ :=
  ((List.range td.n_terms).map
    (fun j => td.weights.getD j 0 * (td.formulas.getD j default).predict feature_arr)).sum

/-- `Trader._predict_with_formula`: the vector
`[formulas[j].predict(feature_arr) for j in range(n_terms)]` together with
`np.sum(weights * pred_formulas)`, the sum of the elementwise product of two
equal-length vectors.  The `reshape(1, -1)` applied to the returned row only
matters where the row is stored, and is accounted for at the storage sites. -/
def Trader.predict_with_formula (td : Trader) (feature_arr : FeatureArr) : ℚ × List ℚ :=
  let pred_formulas :=
    (List.range td.n_terms).map (fun j => (td.formulas.getD j default).predict feature_arr)
  ((List.zipWith (· * ·) td.weights pred_formulas).sum, pred_formulas)

/-- `Trader._recalc_predicts_hist`: reset both histories to all-NaN of length
`T = feature_arr.shape[0]`, then `for t in range(max_lag, T)` store the result
of `_predict_with_formula(feature_arr[:t+1])` at position `t` of each.  The
Python loop body performs two independent element assignments (the scalar into
`_pred_hist`, the row into `_pred_hist_formulas`); they are rendered as two
passes over the same index list `range(max_lag, T)`. -/
def Trader.recalc_predicts_hist (td : Trader) (feature_arr : FeatureArr) : Trader :=
  let T := feature_arr.length
  let idxs := List.range' td.max_lag (T - td.max_lag)
  let hist := idxs.foldl
    (fun a t => a.set t (some (td.predict_with_formula (feature_arr.take (t + 1))).1))
    (List.replicate T none)
  let mat := idxs.foldl
    (fun a t => a.set t (((td.predict_with_formula (feature_arr.take (t + 1))).2).map some))
    (List.replicate T (List.replicate td.n_terms none))
  { td with pred_hist := hist, pred_hist_formulas := NPArr.two mat }

/-- `Trader._append_predicts`: `np.append(_pred_hist, pred)` appends the new
scalar to the 1-D history; `np.append(_pred_hist_formulas, preds_f)` is called
without an `axis` argument, so numpy flattens both operands and concatenates
them into a 1-D array. -/
def Trader.append_predicts (td : Trader) (feature_arr : FeatureArr) : Trader :=
  let pf := td.predict_with_formula feature_arr
  { td with
    pred_hist := td.pred_hist ++ [some pf.1]
    pred_hist_formulas := NPArr.one (td.pred_hist_formulas.ravel ++ pf.2.map some) }

/-- `np.sign` on a non-NaN float. -/
def npSign (q : ℚ) : ℚ := if 0 < q then 1 else if q < 0 then -1 else 0

/-- `Trader._update_score`.  For `eval_method == "default"` it sets
`score = np.sum((np.sign(_pred_hist) * return_arr)[~np.isnan(_pred_hist)])`:
`np.sign` maps NaN to NaN and a product with NaN is NaN, so the boolean mask
keeps exactly the positions where `_pred_hist` is defined; the elementwise
product needs operands of equal length (the degenerate numpy broadcast of a
length-1 operand is not modelled).  Any other method name raises
`NotImplementedError(f"unknown eval_method : {eval_method}")` before anything
is written to `self.score`. -/
def Trader.update_score (td : Trader) (return_arr : List ℚ) (eval_method : String) :
    Trader × Option PyErr :=
  if eval_method = "default" then
    if td.pred_hist.length = return_arr.length then
      let s := ((td.pred_hist.zip return_arr).filterMap
        (fun pr => pr.1.map (fun q => npSign q * pr.2))).sum
      ({ td with score := s }, none)
    else
      (td, some (.valueError "operands could not be broadcast together"))
  else
    (td, some (.notImplementedError ("unknown eval_method : " ++ eval_method)))

/-- `Trader._update_weights`.  Its first statement is
`ind = ~np.isnan(self._preds_hist)`, and the attribute `_preds_hist` is never
assigned anywhere in the class (the histories maintained by the other methods
are `_pred_hist` and `_pred_hist_formulas`), so every call raises
`AttributeError` immediately: `return_arr` is never inspected, the OLS fit is
never reached, and nothing is written to `self.weights`. -/
def Trader.update_weights (td : Trader) (return_arr : List ℚ) : Trader × Option PyErr :=
  let _ := return_arr
  (td, some (.attributeError "_preds_hist"))

/-- `Trader._to_numerial_repr`: it first builds
`formula_arr = np.array([formula.to_numerical_repr() for formula in formulas])`
and then evaluates `return self.n_temrs, formula_arr`; the attribute
`n_temrs` is never assigned (`__init__` sets `n_terms`), so the `return`
statement raises `AttributeError` and the pair is never produced. -/
def Trader.to_numerial_repr (td : Trader) : Except PyErr (ℕ × List (List ℚ)) :=
  let _formula_arr := td.formulas.map (fun f => f.to_numerical_repr)
  .error (.attributeError "n_temrs")

/-- A concrete formula used for concrete instantiations: constantly `1`. -/
def fcOne : Formula := ⟨fun _ => 1, [0]⟩

/-! ## Helper lemmas -/

theorem foldl_set_length {α : Type} (f : ℕ → α) (idxs : List ℕ) (l : List α) :
    (idxs.foldl (fun a i => a.set i (f i)) l).length = l.length := by
  induction idxs generalizing l with
  | nil => rfl
  | cons i is ih => simp [List.foldl_cons, ih]

theorem foldl_set_getElem? {α : Type} (f : ℕ → α) (idxs : List ℕ) (l : List α) (j : ℕ) :
    (idxs.foldl (fun a i => a.set i (f i)) l)[j]? =
      if j ∈ idxs ∧ j < l.length then some (f j) else l[j]? := by
  induction idxs generalizing l with
  | nil => simp
  | cons i is ih =>
    rw [List.foldl_cons, ih]
    simp only [List.length_set, List.mem_cons]
    by_cases h2 : j < l.length
    · by_cases h1 : j ∈ is
      · simp [h1, h2]
      · by_cases h3 : j = i
        · subst h3
          simp [h1, h2, List.getElem?_set_self h2]
        · rw [List.getElem?_set_ne (fun h => h3 h.symm)]
          simp [h1, h2, h3]
    · have e1 : l[j]? = none := List.getElem?_eq_none (by omega)
      have e2 : (l.set i (f i))[j]? = none := List.getElem?_eq_none (by simp; omega)
      simp [e1, e2, h2]


theorem mem_range'_iff (s n j : ℕ) : j ∈ List.range' s n ↔ s ≤ j ∧ j < s + n := by
  rw [List.mem_range']
  constructor
  · rintro ⟨i, hi, rfl⟩
    omega
  · rintro ⟨h1, h2⟩
    exact ⟨j - s, by omega, by omega⟩

/-! ## Theorems about the claims -/

/-- C3: for every trader configuration and every feature history of length
`T ≥ max_lag`, `_recalc_predicts_hist` produces an agent-level history of
length `T` and a 2-D per-formula matrix of `T` rows in which every position
`i < max_lag` is undefined in both histories (NaN scalar, all-NaN row) and
every position `max_lag ≤ i < T` holds a defined agent scalar and a row of
`n_terms` defined formula values. -/
theorem recalc_lag_invariant (td : Trader) (H : FeatureArr)
    (hT : td.max_lag ≤ H.length) :
    ∃ M : List (List Cell),
      (td.recalc_predicts_hist H).pred_hist_formulas = NPArr.two M ∧
      (td.recalc_predicts_hist H).pred_hist.length = H.length ∧
      M.length = H.length ∧
      ∀ i < H.length,
        (i < td.max_lag →
          (td.recalc_predicts_hist H).pred_hist[i]? = some none ∧
          M[i]? = some (List.replicate td.n_terms none)) ∧
        (td.max_lag ≤ i →
          (∃ q : ℚ, (td.recalc_predicts_hist H).pred_hist[i]? = some (some q)) ∧
          (∃ row : List Cell, M[i]? = some row ∧ row.length = td.n_terms ∧
            ∀ c ∈ row, c.isSome)) := by
  refine ⟨_, rfl, ?_, ?_, ?_⟩
  · simp [Trader.recalc_predicts_hist, foldl_set_length]
  · simp [Trader.recalc_predicts_hist, foldl_set_length]
  · intro i hi
    have hmem : i ∈ List.range' td.max_lag (H.length - td.max_lag) ↔ td.max_lag ≤ i := by
      rw [mem_range'_iff]
      omega
    constructor
    · intro hlag
      have hnot : ¬ i ∈ List.range' td.max_lag (H.length - td.max_lag) := by
        rw [hmem]; omega
      constructor
      · simp [Trader.recalc_predicts_hist, foldl_set_getElem?, hnot,
          List.getElem?_replicate, hi]
      · simp [Trader.recalc_predicts_hist, foldl_set_getElem?, hnot,
          List.getElem?_replicate, hi]
    · intro hlag
      have hyes : i ∈ List.range' td.max_lag (H.length - td.max_lag) := hmem.mpr hlag
      constructor
      · refine ⟨(td.predict_with_formula (H.take (i + 1))).1, ?_⟩
        simp [Trader.recalc_predicts_hist, foldl_set_getElem?, hyes, hi]
      · refine ⟨((td.predict_with_formula (H.take (i + 1))).2).map some, ?_, ?_, ?_⟩
        · simp [Trader.recalc_predicts_hist, foldl_set_getElem?, hyes, hi]
        · simp [Trader.predict_with_formula]
        · intro c hc
          rcases List.mem_map.mp hc with ⟨q, _, rfl⟩
          rfl

/-- Closed-form instantiation of `recalc_lag_invariant`: a trader with one
formula and `max_lag = 1` over a two-step feature history. -/
theorem recalc_lag_invariant_witness :
    (Trader.init [1] [fcOne] 1).max_lag ≤ ([[0], [0]] : FeatureArr).length ∧
    ∃ M : List (List Cell),
      ((Trader.init [1] [fcOne] 1).recalc_predicts_hist [[0], [0]]).pred_hist_formulas =
        NPArr.two M ∧
      ((Trader.init [1] [fcOne] 1).recalc_predicts_hist [[0], [0]]).pred_hist.length =
        ([[0], [0]] : FeatureArr).length ∧
      M.length = ([[0], [0]] : FeatureArr).length ∧
      ∀ i < ([[0], [0]] : FeatureArr).length,
        (i < (Trader.init [1] [fcOne] 1).max_lag →
          ((Trader.init [1] [fcOne] 1).recalc_predicts_hist [[0], [0]]).pred_hist[i]? =
            some none ∧
          M[i]? = some (List.replicate (Trader.init [1] [fcOne] 1).n_terms none)) ∧
        ((Trader.init [1] [fcOne] 1).max_lag ≤ i →
          (∃ q : ℚ,
            ((Trader.init [1] [fcOne] 1).recalc_predicts_hist [[0], [0]]).pred_hist[i]? =
              some (some q)) ∧
          (∃ row : List Cell, M[i]? = some row ∧
            row.length = (Trader.init [1] [fcOne] 1).n_terms ∧
            ∀ c ∈ row, c.isSome)) :=
  ⟨by decide, recalc_lag_invariant (Trader.init [1] [fcOne] 1) [[0], [0]] (by decide)⟩

/-- C1 (evaluation at the failing input): one constant formula, weights `[1]`,
`max_lag = 0`, feature history `H = [[5]]` of length `T = 1 > max_lag`.
`recompute_all(H)` and `recompute_all(H[:-1])` followed by `append_one(H)`
agree on the agent-level history, but the recompute leaves the per-formula
history as the 1 × 1 matrix `[[1]]` while the append path leaves the flat
1-D vector `[1]` (`np.append` without an `axis` flattens), so the two final
per-formula states differ and the append path has no final matrix row. -/
theorem recalc_append_final_row_mismatch :
    ((Trader.init [1] [fcOne] 0).recalc_predicts_hist [[5]]).pred_hist = [some 1] ∧
    (((Trader.init [1] [fcOne] 0).recalc_predicts_hist
        (([[5]] : FeatureArr).dropLast)).append_predicts [[5]]).pred_hist = [some 1] ∧
    ((Trader.init [1] [fcOne] 0).recalc_predicts_hist [[5]]).pred_hist_formulas =
      NPArr.two [[some 1]] ∧
    (((Trader.init [1] [fcOne] 0).recalc_predicts_hist
        (([[5]] : FeatureArr).dropLast)).append_predicts [[5]]).pred_hist_formulas =
      NPArr.one [some 1] ∧
    ((Trader.init [1] [fcOne] 0).recalc_predicts_hist [[5]]).pred_hist_formulas ≠
      (((Trader.init [1] [fcOne] 0).recalc_predicts_hist
        (([[5]] : FeatureArr).dropLast)).append_predicts [[5]]).pred_hist_formulas := by
  have h1 : ((Trader.init [1] [fcOne] 0).recalc_predicts_hist [[5]]).pred_hist = [some 1] := by
    norm_num [Trader.recalc_predicts_hist, Trader.init, Trader.predict_with_formula, fcOne,
      List.range', List.range_succ, List.range_zero]
  have h2 : (((Trader.init [1] [fcOne] 0).recalc_predicts_hist
      (([[5]] : FeatureArr).dropLast)).append_predicts [[5]]).pred_hist = [some 1] := by
    norm_num [Trader.recalc_predicts_hist, Trader.append_predicts, Trader.init,
      Trader.predict_with_formula, fcOne, List.range', List.range_succ, List.range_zero]
  have h3 : ((Trader.init [1] [fcOne] 0).recalc_predicts_hist [[5]]).pred_hist_formulas =
      NPArr.two [[some 1]] := by
    norm_num [Trader.recalc_predicts_hist, Trader.init, Trader.predict_with_formula, fcOne,
      List.range', List.range_succ, List.range_zero]
  have h4 : (((Trader.init [1] [fcOne] 0).recalc_predicts_hist
      (([[5]] : FeatureArr).dropLast)).append_predicts [[5]]).pred_hist_formulas =
      NPArr.one [some 1] := by
    norm_num [Trader.recalc_predicts_hist, Trader.append_predicts, Trader.init,
      Trader.predict_with_formula, fcOne, NPArr.ravel, List.range', List.range_succ,
      List.range_zero]
  refine ⟨h1, h2, h3, h4, ?_⟩
  rw [h3, h4]
  simp

/-- C2 (evaluation at the failing input): for a fresh trader with two constant
formulas and `max_lag = 0`, one `append_one` step appends one scalar to the
agent-level history (length 1), but `np.append` without an `axis` turns the
per-formula matrix into the flat 1-D vector `[1, 1]`: the result has no row
structure (`nrows = none`), so the claimed co-indexing
`len(prediction_history) == prediction_history_matrix.rows` fails. -/
theorem append_flattens_formula_matrix :
    ((Trader.init [1, 1] [fcOne, fcOne] 0).append_predicts [[5]]).pred_hist.length = 1 ∧
    ((Trader.init [1, 1] [fcOne, fcOne] 0).append_predicts [[5]]).pred_hist_formulas =
      NPArr.one [some 1, some 1] ∧
    ((Trader.init [1, 1] [fcOne, fcOne] 0).append_predicts [[5]]).pred_hist_formulas.nrows =
      none := by
  have h2 : ((Trader.init [1, 1] [fcOne, fcOne] 0).append_predicts [[5]]).pred_hist_formulas =
      NPArr.one [some 1, some 1] := by
    norm_num [Trader.append_predicts, Trader.init, Trader.predict_with_formula, fcOne,
      NPArr.ravel, List.range_succ, List.range_zero]
  refine ⟨?_, h2, ?_⟩
  · simp [Trader.append_predicts, Trader.init]
  · rw [h2]
    rfl

/-- The trader of the regression-recalibration scenario: two formulas, current
weights `[0, 0]`, per-formula prediction history `[[1,0],[0,1],[1,1]]` with
every row defined, agent-level history of matching length. -/
def tdRegression : Trader :=
  { Trader.init [0, 0] [fcOne, fcOne] 0 with
    pred_hist := [some 0, some 0, some 0]
    pred_hist_formulas :=
      NPArr.two [[some 1, some 0], [some 0, some 1], [some 1, some 1]] }

/-- C4 (evaluation at the failing input): in the regression scenario
(per-formula history `[[1,0],[0,1],[1,1]]`, returns `[2,3,5]`, OLS solution
`[2,3]`), `_update_weights` raises `AttributeError` on its first statement —
it reads `self._preds_hist`, an attribute no method ever assigns — so the
weights remain `[0,0]` and the claimed vector `[2,3]` is never committed. -/
theorem update_weights_raises_attribute_error :
    (tdRegression.update_weights [2, 3, 5]).2 =
      some (PyErr.attributeError "_preds_hist") ∧
    (tdRegression.update_weights [2, 3, 5]).1.weights = [0, 0] ∧
    (tdRegression.update_weights [2, 3, 5]).1.weights ≠ [2, 3] := by
  refine ⟨by decide, by decide, by decide⟩

/-- C5: whenever `_update_weights` fails (raises instead of producing a
coefficient vector), the weight vector observed after the call is exactly the
one observed before it: the exception is raised before any write to
`self.weights`, so a failed recalibration never partially updates, zeroes or
NaN-fills the weights. -/
theorem update_weights_failure_preserves_weights (td : Trader) (r : List ℚ) (e : PyErr)
    (_h : (td.update_weights r).2 = some e) :
    (td.update_weights r).1.weights = td.weights := rfl

theorem update_weights_failure_preserves_weights_witness :
    ((Trader.init [5] [fcOne] 0).update_weights [1]).2 =
      some (PyErr.attributeError "_preds_hist") ∧
    ((Trader.init [5] [fcOne] 0).update_weights [1]).1.weights =
      (Trader.init [5] [fcOne] 0).weights :=
  ⟨by decide,
    update_weights_failure_preserves_weights (Trader.init [5] [fcOne] 0) [1]
      (PyErr.attributeError "_preds_hist") (by decide)⟩

/-- C9 (evaluation of the code): `_to_numerial_repr` never returns the claimed
`(formula_count, per-formula representations)` pair: after building the
representation array its `return` statement reads the misspelled attribute
`n_temrs` (never assigned; `__init__` sets `n_terms`) and raises
`AttributeError`, for every trader. -/
theorem to_numerial_repr_raises_attribute_error (td : Trader) :
    td.to_numerial_repr = Except.error (PyErr.attributeError "n_temrs") := rfl

/-- C10: immediately after `Trader(weights, formulas, max_lag)` the agent-level
history has length `max_lag` with every cell undefined, the per-formula
history is a 2-D matrix of `max_lag` rows, each of width
`n_terms = len(formulas)` and fully undefined, the score is `0`, and the
histories are nonempty whenever `max_lag ≠ 0`. -/
theorem init_state (w : List ℚ) (fs : List Formula) (m : ℕ) :
    (Trader.init w fs m).pred_hist.length = m ∧
    (∀ c ∈ (Trader.init w fs m).pred_hist, c = none) ∧
    (∃ M : List (List Cell),
      (Trader.init w fs m).pred_hist_formulas = NPArr.two M ∧
      M.length = m ∧ ∀ row ∈ M, row.length = fs.length ∧ ∀ c ∈ row, c = none) ∧
    (Trader.init w fs m).n_terms = fs.length ∧
    (Trader.init w fs m).score = 0 ∧
    (m ≠ 0 → (Trader.init w fs m).pred_hist ≠ []) := by
  refine ⟨by simp [Trader.init], ?_, ⟨_, rfl, by simp [Trader.init], ?_⟩, rfl, rfl, ?_⟩
  · intro c hc
    exact List.eq_of_mem_replicate hc
  · intro row hrow
    have hr := List.eq_of_mem_replicate hrow
    subst hr
    exact ⟨by simp, fun c hc => List.eq_of_mem_replicate hc⟩
  · intro hm hnil
    apply hm
    have := congrArg List.length hnil
    simpa [Trader.init] using this

theorem init_state_witness :
    (Trader.init [1] [fcOne] 2).pred_hist.length = 2 ∧
    (∀ c ∈ (Trader.init [1] [fcOne] 2).pred_hist, c = none) ∧
    (∃ M : List (List Cell),
      (Trader.init [1] [fcOne] 2).pred_hist_formulas = NPArr.two M ∧
      M.length = 2 ∧ ∀ row ∈ M, row.length = [fcOne].length ∧ ∀ c ∈ row, c = none) ∧
    (Trader.init [1] [fcOne] 2).n_terms = [fcOne].length ∧
    (Trader.init [1] [fcOne] 2).score = 0 ∧
    (2 ≠ 0 → (Trader.init [1] [fcOne] 2).pred_hist ≠ []) :=
  init_state [1] [fcOne] 2

/-- Specification-side "default" score (spec §4.2): the sum, over the
positions of the prediction history where the prediction is defined, of
`sign(prediction_t) * return_t`; undefined positions contribute nothing. -/
def defaultScoreSpec (hist : List Cell) (ret : List ℚ) : ℚ :=
  ∑ i ∈ Finset.range hist.length,
    match hist[i]?, ret[i]? with
    | some (some p), some r => npSign p * r
    | _, _ => 0

theorem filterMap_score_eq_spec (hist : List Cell) (ret : List ℚ) :
    ((hist.zip ret).filterMap (fun pr => pr.1.map (fun q => npSign q * pr.2))).sum =
      defaultScoreSpec hist ret := by
  induction hist generalizing ret with
  | nil => simp [defaultScoreSpec]
  | cons c hist ih =>
    cases ret with
    | nil =>
      rw [defaultScoreSpec]
      simp only [List.zip_nil_right, List.filterMap_nil, List.sum_nil]
      rw [eq_comm]
      apply Finset.sum_eq_zero
      intro i _
      rcases (c :: hist)[i]? with _ | c' <;> simp
    | cons r ret =>
      have hstep : ∀ c : Cell, defaultScoreSpec (c :: hist) (r :: ret) =
          defaultScoreSpec hist ret +
            (match c with | some p => npSign p * r | none => 0) := by
        intro c
        rw [defaultScoreSpec, defaultScoreSpec]
        simp only [List.length_cons]
        rw [Finset.sum_range_succ']
        congr 1
        · exact Finset.sum_congr rfl fun k _ => by
            rw [List.getElem?_cons_succ, List.getElem?_cons_succ]
        · cases c <;> simp
      cases c with
      | none =>
        rw [hstep, List.zip_cons_cons, List.filterMap_cons]
        simp only [Option.map_none']
        rw [ih]
        simp
      | some p =>
        rw [hstep, List.zip_cons_cons, List.filterMap_cons]
        simp only [Option.map_some']
        rw [List.sum_cons, ih]
        exact add_comm _ _

/-- C6: with a return series whose length matches the prediction history,
`_update_score` with method `"default"` succeeds and commits as the new score
the sum, over exactly the positions where the prediction is defined, of
`sign(prediction_t) * return_t` (a zero prediction contributes
`sign(0) * return_t = 0`). -/
theorem update_score_default (td : Trader) (ret : List ℚ)
    (hlen : td.pred_hist.length = ret.length) :
    td.update_score ret "default" =
      ({ td with score := defaultScoreSpec td.pred_hist ret }, none) := by
  unfold Trader.update_score
  rw [if_pos rfl, if_pos hlen]
  rw [filterMap_score_eq_spec]

/-- The trader of the scoring scenario: combined predictions `3, -1, 0`
(2 formulas, weights `[1, 1]`, `max_lag = 0`), all positions defined. -/
def tdScenario : Trader :=
  { Trader.init [1, 1] [fcOne, fcOne] 0 with pred_hist := [some 3, some (-1), some 0] }

theorem update_score_default_witness :
    tdScenario.pred_hist.length = ([1, -1, 2] : List ℚ).length ∧
    tdScenario.update_score [1, -1, 2] "default" =
      ({ tdScenario with score := 2 }, none) := by
  refine ⟨rfl, ?_⟩
  have h := update_score_default tdScenario [1, -1, 2] rfl
  have h2 : defaultScoreSpec tdScenario.pred_hist [1, -1, 2] = 2 := by
    norm_num [defaultScoreSpec, tdScenario, Trader.init, npSign, Finset.sum_range_succ]
  rw [h, h2]

/-- Specification-side combined prediction (spec §4.1 / §8 "Linearity"):
`sum(weight_i * formula_i.predict(H))`, weights paired positionally with the
formula collection. -/
def combinedPredictSpec (weights : List ℚ) (formulas : List Formula) (H : FeatureArr) : ℚ :=
  (List.zipWith (fun w f => w * f.predict H) weights formulas).sum

theorem zipWith_eq_range_map {α β γ : Type} (g : α → β → γ) (da : α) (db : β)
    (as : List α) (bs : List β) (h : as.length = bs.length) :
    List.zipWith g as bs =
      (List.range as.length).map (fun j => g (as.getD j da) (bs.getD j db)) := by
  induction as generalizing bs with
  | nil => simp
  | cons a as ih =>
    cases bs with
    | nil => simp at h
    | cons b bs =>
      simp only [List.zipWith_cons_cons, List.length_cons, List.range_succ_eq_map,
        List.map_cons, List.map_map]
      refine congrArg₂ List.cons rfl ?_
      rw [ih bs (by simpa using h)]
      rfl

/-- C7: for a trader whose weight vector and formula collection both have
length `n_terms`, the combined prediction `Trader.predict` equals the sum over
`i` of `weight_i * formula_i.predict(H)`, for every feature history `H`. -/
theorem predict_is_weighted_sum (td : Trader) (H : FeatureArr)
    (hw : td.weights.length = td.n_terms) (hf : td.formulas.length = td.n_terms) :
    td.predict H = combinedPredictSpec td.weights td.formulas H := by
  unfold Trader.predict combinedPredictSpec
  rw [zipWith_eq_range_map (fun w f => w * f.predict H) 0 default td.weights td.formulas
    (by rw [hw, hf]), hw]

theorem predict_is_weighted_sum_witness :
    (Trader.init [2] [fcOne] 0).weights.length = (Trader.init [2] [fcOne] 0).n_terms ∧
    (Trader.init [2] [fcOne] 0).formulas.length = (Trader.init [2] [fcOne] 0).n_terms ∧
    (Trader.init [2] [fcOne] 0).predict [[0]] =
      combinedPredictSpec (Trader.init [2] [fcOne] 0).weights
        (Trader.init [2] [fcOne] 0).formulas [[0]] :=
  ⟨rfl, rfl, predict_is_weighted_sum (Trader.init [2] [fcOne] 0) [[0]] rfl rfl⟩

/-- C8: calling `_update_score` with any method name other than `"default"`
fails with the unsupported-method error (`NotImplementedError` in the code,
`UnsupportedMethod` in the spec's taxonomy), performs no fallback to the
default method, and returns the trader state completely unchanged — in
particular the score field is untouched. -/
theorem update_score_unknown_method (td : Trader) (ret : List ℚ) (m : String)
    (h : m ≠ "default") :
    td.update_score ret m =
      (td, some (PyErr.notImplementedError ("unknown eval_method : " ++ m))) := by
  unfold Trader.update_score
  rw [if_neg h]

theorem update_score_unknown_method_witness :
    ("sharpe" : String) ≠ "default" ∧
    (Trader.init [1] [fcOne] 2).update_score [1] "sharpe" =
      (Trader.init [1] [fcOne] 2,
        some (PyErr.notImplementedError "unknown eval_method : sharpe")) := by
  refine ⟨by decide, ?_⟩
  have hs : ("unknown eval_method : " ++ "sharpe" : String) = "unknown eval_method : sharpe" := by
    decide
  rw [update_score_unknown_method (Trader.init [1] [fcOne] 2) [1] "sharpe" (by decide), hs]
